import Mathlib

/-! automo: space creation and the session launcher

A shallow embedding of `spaces.Create` (src/spaces/create.go) and of
`OpenWorkspace` / `SanitizeSessionName` (src/cmd/open.go).

Go strings are Lean strings (their character lists); `'.'`, `':'` and `'/'`
are single bytes that occur in no multi-byte sequence, so working on
characters agrees with Go working on bytes for every well-formed string.

The operating system, git, the registry, the hooks and tmux are collaborators
whose code is outside the embedded files.  Each one is a field of an
environment record: a function from the arguments of a call to its result.
The embedded functions return, next to the Go results, the list of
collaborator calls they made, in order.  Every collaborator is called at most
once with given arguments in one run, so a function of the arguments
describes every behaviour a run can observe.  Collaborators are assumed to
return.
-/

namespace GoLib

/-- Worker of `strings.ReplaceAll` for a non-empty `old`: scans left to
right, replaces an occurrence of `old` that starts at the current position by
`new` and skips the rest of that occurrence (`skip` characters are still to
be skipped), so that the occurrences replaced do not overlap. -/
def replaceAllAux (old new : List Char) : Nat → List Char → List Char
  | _, [] => []
  | skip + 1, _ :: cs => replaceAllAux old new skip cs
  | 0, c :: cs =>
    if old.isPrefixOf (c :: cs) then new ++ replaceAllAux old new (old.length - 1) cs
    else c :: replaceAllAux old new 0 cs

/-- Go's `strings.ReplaceAll(s, old, new)`.  With an empty `old` Go inserts
`new` before every character and at the end. -/
def stringsReplaceAll (s old new : String) : String :=
  if old.data = [] then ⟨new.data ++ s.data.flatMap (fun c => c :: new.data)⟩
  else ⟨replaceAllAux old.data new.data 0 s.data⟩

/-- Go's `os.IsPathSeparator` on Unix. -/
def isPathSeparator (c : Char) : Bool := c == '/'

/-- The path elements of a path: the pieces between separators (an empty
piece for a leading, trailing or doubled separator). -/
def splitElements : List Char → List (List Char)
  | [] => [[]]
  | c :: cs =>
    if isPathSeparator c then [] :: splitElements cs
    else
      match splitElements cs with
      | [] => [[c]]
      | e :: es => (c :: e) :: es

/-- One round of the loop of Go's `filepath.Clean`, on the next path element
`e`; `out` holds the elements written so far, the last one first.  An empty
element and `.` are dropped; `..` removes the last element written when that
is not itself `..`, is written when the path is not rooted and nothing can be
removed, and is dropped at the root; any other element is written. -/
def cleanElement (rooted : Bool) (out : List (List Char)) (e : List Char) :
    List (List Char) :=
  if e = [] then out
  else if e = ['.'] then out
  else if e = ['.', '.'] then
    match out with
    | top :: rest =>
      if top ≠ ['.', '.'] then rest
      else if !rooted then e :: out
      else out
    | [] => if !rooted then [e] else []
  else e :: out

/-- Elements joined by single separators. -/
def joinElements : List (List Char) → List Char
  | [] => []
  | [e] => e
  | e :: es => e ++ '/' :: joinElements es

/-- Go's `filepath.Clean` on Unix (no volume names): the shortest path
equivalent to `path` by lexical processing; `.` when the result is empty. -/
def filepathClean (path : String) : String :=
  let rooted := path.data.head? == some '/'
  let out := ((splitElements path.data).foldl (cleanElement rooted) []).reverse
  let body := joinElements out
  if rooted then ⟨'/' :: body⟩
  else if body = [] then "."
  else ⟨body⟩

/-- Go's `strings.Join(elems, "/")`. -/
def stringsJoin : List String → List Char
  | [] => []
  | [e] => e.data
  | e :: es => e.data ++ '/' :: stringsJoin es

/-- Go's `filepath.Join` on Unix: leading empty elements are ignored, the
rest is joined with separators and cleaned; the empty string when every
element is empty. -/
def filepathJoin : List String → String
  | [] => ""
  | e :: es => if e ≠ "" then filepathClean ⟨stringsJoin (e :: es)⟩ else filepathJoin es

/-- Go's `filepath.Base` on Unix: the last element of the path, trailing
separators removed first; `.` for the empty path and `/` for a path of
separators only. -/
def filepathBase (path : String) : String :=
  if path = "" then "."
  else
    let stripped := (path.data.reverse.dropWhile isPathSeparator).reverse
    let last := (stripped.reverse.takeWhile (fun c => !isPathSeparator c)).reverse
    if last = [] then "/" else ⟨last⟩

/-- Inputs and results of `filepath.Clean` from the table of Go's own tests
of the function. -/
def cleanTests : List (String × String) :=
  [("abc", "abc"), ("abc/def", "abc/def"), ("a/b/c", "a/b/c"), (".", "."), ("..", ".."),
   ("../..", "../.."), ("../../abc", "../../abc"), ("/abc", "/abc"), ("/", "/"), ("", "."),
   ("abc/", "abc"), ("abc/def/", "abc/def"), ("a/b/c/", "a/b/c"), ("./", "."), ("../", ".."),
   ("../../", "../.."), ("/abc/", "/abc"), ("abc//def//ghi", "abc/def/ghi"), ("abc//", "abc"),
   ("abc/./def", "abc/def"), ("/./abc/def", "/abc/def"), ("abc/.", "abc"),
   ("abc/def/ghi/../jkl", "abc/def/jkl"), ("abc/def/../ghi/../jkl", "abc/jkl"),
   ("abc/def/..", "abc"), ("abc/def/../..", "."), ("/abc/def/../..", "/"),
   ("abc/def/../../..", ".."), ("/abc/def/../../..", "/"),
   ("abc/def/../../../ghi/jkl/../../../mno", "../../mno"), ("/../abc", "/abc"),
   ("abc/./../def", "def"), ("abc//./../def", "def"), ("abc/../../././../def", "../../def")]

/-- Inputs and results of `filepath.Base` from the table of Go's own tests. -/
def baseTests : List (String × String) :=
  [("", "."), (".", "."), ("/.", "."), ("/", "/"), ("////", "/"), ("x/", "x"),
   ("abc", "abc"), ("abc/def", "def"), ("a/b/.x", ".x"), ("a/b/c.", "c."),
   ("a/b/c.x", "c.x")]

/-- Inputs and results of `filepath.Join` from the table of Go's own tests. -/
def joinTests : List (List String × String) :=
  [([], ""), ([""], ""), (["/"], "/"), (["a"], "a"), (["a", "b"], "a/b"), (["a", ""], "a"),
   (["", "b"], "b"), (["/", "a"], "/a"), (["/", "a/b"], "/a/b"), (["/", ""], "/"),
   (["/a", "b"], "/a/b"), (["a", "/b"], "a/b"), (["/a", "/b"], "/a/b"), (["a/", "b"], "a/b"),
   (["a/", ""], "a"), (["", ""], ""), (["//", "a"], "/a")]

/-- A Go `error` value that is not nil. `external` is an error produced by a
collaborator; `errorf format arg` is `fmt.Errorf(format, arg)` with one
string argument; `wrapf format cause` is `fmt.Errorf(format, cause)` with the
verb `%w`. -/
inductive GoError where
  | external (msg : String)
  | errorf (format : String) (arg : String)
  | wrapf (format : String) (cause : GoError)
  deriving DecidableEq, Repr

/-- The result of `os.Stat`: a `FileInfo` (of which only `IsDir()` is read),
an error for which `os.IsNotExist` holds, or any other error. -/
inductive StatResult where
  | ok (isDir : Bool)
  | notExist (err : GoError)
  | failed (err : GoError)
  deriving DecidableEq, Repr

/-- The `err == nil` test on the result of `os.Stat`. -/
def StatResult.errIsNil : StatResult → Bool
  | .ok _ => true
  | _ => false

end GoLib

open GoLib

namespace spaces

/-- CreateOptions of src/spaces/create.go. -/
structure CreateOptions where
  RepoRoot : String
  DestDir : String
  BranchName : String
  ReuseExistingBranch : Bool
  deriving DecidableEq, Repr

/-- The collaborators of `Create`: `os.Stat`, package `git`, package
`registry` (`R` is the loaded registry object) and the space opened for the
hooks (`S`).  A Go `error` result is `none` for nil. -/
structure Env (R S : Type) where
  Stat : String → StatResult
  BranchExists : String → String → Bool
  CreateBranch : String → String → Option GoError
  AddWorktree : String → String → String → Option GoError
  DeleteBranch : String → String → Option GoError
  Load : String → Except GoError R
  AllocatePort : R → Int
  Add : R → String → String → Int → String → R
  Save : R → String → Option GoError
  Open : String → Except GoError S
  RunOnCreate : S → Option GoError

/-- A call to a collaborator, with its arguments. `gitRemoveWorktree` is the
worktree removal of package `git`, which `Create` never issues. -/
inductive Call (R S : Type) where
  | osStat (path : String)
  | gitBranchExists (repoRoot branch : String)
  | gitCreateBranch (repoRoot branch : String)
  | gitAddWorktree (repoRoot path branch : String)
  | gitDeleteBranch (repoRoot branch : String)
  | gitRemoveWorktree (path : String)
  | registryLoad (dir : String)
  | registryAllocatePort (reg : R)
  | registryAdd (reg : R) (name path : String) (port : Int) (repoRoot : String)
  | registrySave (reg : R) (dir : String)
  | spacesOpen (path : String)
  | runOnCreate (space : S)
  deriving DecidableEq, Repr

/-- A call into package `git`. -/
def Call.isGit {R S : Type} : Call R S → Bool
  | .gitBranchExists _ _ => true
  | .gitCreateBranch _ _ => true
  | .gitAddWorktree _ _ _ => true
  | .gitDeleteBranch _ _ => true
  | .gitRemoveWorktree _ => true
  | _ => false

/-- A call to `git.DeleteBranch`. -/
def Call.isDeleteBranch {R S : Type} : Call R S → Bool
  | .gitDeleteBranch _ _ => true
  | _ => false

/-- A call that unwinds a worktree or a branch. -/
def Call.isUnwind {R S : Type} : Call R S → Bool
  | .gitDeleteBranch _ _ => true
  | .gitRemoveWorktree _ => true
  | _ => false

/-- A call into package `git` that changes a branch or a worktree. -/
def Call.isGitWrite {R S : Type} : Call R S → Bool
  | .gitCreateBranch _ _ => true
  | .gitAddWorktree _ _ _ => true
  | .gitDeleteBranch _ _ => true
  | .gitRemoveWorktree _ => true
  | _ => false

/-- A call that `Create` makes before `git.AddWorktree`. -/
def Call.isPrelude {R S : Type} : Call R S → Bool
  | .osStat _ => true
  | .gitBranchExists _ _ => true
  | .gitCreateBranch _ _ => true
  | _ => false

/-- A call to the registry `Add`. -/
def Call.isRegistryAdd {R S : Type} : Call R S → Bool
  | .registryAdd _ _ _ _ _ => true
  | _ => false

/-- A call into package `registry`. -/
def Call.isRegistry {R S : Type} : Call R S → Bool
  | .registryLoad _ => true
  | .registryAllocatePort _ => true
  | .registryAdd _ _ _ _ _ => true
  | .registrySave _ _ => true
  | _ => false

/-- A call that opens the space for its hooks or runs a hook. -/
def Call.isHook {R S : Type} : Call R S → Bool
  | .spacesOpen _ => true
  | .runOnCreate _ => true
  | _ => false

/-- What `Create` returns (`path`, `err`) and the calls it made. -/
structure Result (R S : Type) where
  path : String
  err : Option GoError
  calls : List (Call R S)

/-- Lines 25-26 of create.go: the worktree path. -/
def worktreePathOf (opts : CreateOptions) : String :=
  let repoName := filepathBase opts.RepoRoot
  filepathJoin [opts.DestDir, repoName ++ "-" ++ opts.BranchName]

/-- Lines 53-58 of create.go: register the new space.  A failed `Load` skips
the registration; the result of `Save` is discarded. -/
def registerSpace {R S : Type} (env : Env R S) (opts : CreateOptions)
    (worktreePath : String) : List (Call R S) :=
  match env.Load opts.DestDir with
  | .ok reg =>
    let port := env.AllocatePort reg
    let name := filepathBase worktreePath
    let reg' := env.Add reg name worktreePath port opts.RepoRoot
    [.registryLoad opts.DestDir, .registryAllocatePort reg,
     .registryAdd reg name worktreePath port opts.RepoRoot,
     .registrySave reg' opts.DestDir]
  | .error _ => [.registryLoad opts.DestDir]

/-- Lines 60-63 of create.go: run the on-create hooks when the space opens;
nothing of it is returned. -/
def runCreateHooks {R S : Type} (env : Env R S) (worktreePath : String) :
    List (Call R S) :=
  match env.Open worktreePath with
  | .ok space => [.spacesOpen worktreePath, .runOnCreate space]
  | .error _ => [.spacesOpen worktreePath]

/-- Lines 46-65 of create.go: add the worktree, delete the branch again when
that fails and this run created it, otherwise register and run the hooks.
`calls` are the calls made before. -/
def addWorktreeAndRegister {R S : Type} (env : Env R S) (opts : CreateOptions)
    (worktreePath : String) (createdBranch : Bool) (calls : List (Call R S)) :
    Result R S :=
  match env.AddWorktree opts.RepoRoot worktreePath opts.BranchName with
  | some err =>
    ⟨"", some (.wrapf "failed to create worktree: %w" err),
      calls ++ [.gitAddWorktree opts.RepoRoot worktreePath opts.BranchName] ++
        (if createdBranch then [.gitDeleteBranch opts.RepoRoot opts.BranchName] else [])⟩
  | none =>
    ⟨worktreePath, none,
      calls ++ [.gitAddWorktree opts.RepoRoot worktreePath opts.BranchName] ++
        registerSpace env opts worktreePath ++ runCreateHooks env worktreePath⟩

/-- `Create` of src/spaces/create.go. -/
def Create {R S : Type} (env : Env R S) (opts : CreateOptions) : Result R S :=
  let worktreePath := worktreePathOf opts
  if (env.Stat worktreePath).errIsNil then
    ⟨"", some (.errorf "worktree directory already exists: %s" worktreePath),
      [.osStat worktreePath]⟩
  else
    let branchExists := env.BranchExists opts.RepoRoot opts.BranchName
    let calls : List (Call R S) :=
      [.osStat worktreePath, .gitBranchExists opts.RepoRoot opts.BranchName]
    if branchExists && !opts.ReuseExistingBranch then
      ⟨"", some (.errorf "branch %q already exists" opts.BranchName), calls⟩
    else if !branchExists then
      match env.CreateBranch opts.RepoRoot opts.BranchName with
      | some err =>
        ⟨"", some (.wrapf "failed to create branch: %w" err),
          calls ++ [.gitCreateBranch opts.RepoRoot opts.BranchName]⟩
      | none =>
        addWorktreeAndRegister env opts worktreePath true
          (calls ++ [.gitCreateBranch opts.RepoRoot opts.BranchName])
    else
      addWorktreeAndRegister env opts worktreePath false calls

/-- The calls of `Create` up to and including `git.BranchExists`. -/
def callsToBranchExists (R S : Type) (opts : CreateOptions) : List (Call R S) :=
  [.osStat (worktreePathOf opts), .gitBranchExists opts.RepoRoot opts.BranchName]

end spaces

namespace registry

/-- Modelled from the spec: the space record of package registry, whose code
is not among the embedded files: name, path, port and owning repository. -/
structure SpaceRecord where
  name : String
  path : String
  port : Int
  repoRoot : String
  deriving DecidableEq, Repr

/-- Modelled from the spec: the registry of package registry, the space
records of one destination directory. -/
abbrev Registry := List SpaceRecord

/-- Modelled from the spec: `AllocatePort` of package registry, the lowest
port of the candidate range that no record of the registry holds.  The range
starts at `rangeStart`; the spec gives it no end, and among the first
`length + 1` candidates one is always free. -/
def AllocatePort (rangeStart : Int) (reg : Registry) : Int :=
  (((List.range (reg.length + 1)).map (fun i => rangeStart + (i : Int))).find?
    (fun p => !(reg.map (fun r => r.port)).contains p)).getD rangeStart

/-- Modelled from the spec: `Add` of package registry, which inserts the
record for `name` or replaces the one there is. -/
def Add (reg : Registry) (name path : String) (port : Int) (repoRoot : String) :
    Registry :=
  reg.filter (fun r => r.name ≠ name) ++ [⟨name, path, port, repoRoot⟩]

end registry

namespace spaces

/-- An environment whose collaborators answer with the given results whatever
their arguments, over the registry modelled from the spec with ports from
9000. -/
def fixedEnv (stat : StatResult) (branchExists : Bool)
    (createBranch addWorktree deleteBranch : Option GoError)
    (load : Except GoError registry.Registry) (save : Option GoError)
    (openSpace : Except GoError String) (hook : Option GoError) :
    Env registry.Registry String where
  Stat := fun _ => stat
  BranchExists := fun _ _ => branchExists
  CreateBranch := fun _ _ => createBranch
  AddWorktree := fun _ _ _ => addWorktree
  DeleteBranch := fun _ _ => deleteBranch
  Load := fun _ => load
  AllocatePort := registry.AllocatePort 9000
  Add := registry.Add
  Save := fun _ _ => save
  Open := fun _ => openSpace
  RunOnCreate := fun _ => hook

/-- An environment in which the worktree path is absent, the branch is new
and every collaborator succeeds, over an empty registry. -/
def freshEnv : Env registry.Registry String :=
  fixedEnv (.notExist (.external "no such file or directory")) false none none none
    (.ok []) none (.ok "space") none

/-- An environment in which the worktree path exists as a directory. -/
def existingEnv : Env registry.Registry String :=
  fixedEnv (.ok true) false none none none (.ok []) none (.ok "space") none

/-- An environment in which the branch is new, `git.AddWorktree` fails and
`git.DeleteBranch` fails as well. -/
def rollbackEnv : Env registry.Registry String :=
  fixedEnv (.notExist (.external "no such file or directory")) false none
    (some (.external "worktree add failed")) (some (.external "branch delete failed"))
    (.ok []) none (.ok "space") none

/-- An environment in which the worktree path is absent and the branch
exists. -/
def conflictEnv : Env registry.Registry String :=
  fixedEnv (.notExist (.external "no such file or directory")) true none none none
    (.ok []) none (.ok "space") none

/-- An environment in which the worktree is added and then the registry does
not load, cannot be saved, and the space does not open. -/
def bookkeepingFailsEnv : Env registry.Registry String :=
  fixedEnv (.notExist (.external "no such file or directory")) false none none none
    (.error (.external "registry unreadable")) (some (.external "disk full"))
    (.error (.external "no config")) (some (.external "hook failed"))

/-- Options of a run on a branch whose name holds a separator. -/
def slashBranchOpts : CreateOptions := ⟨"/r/proj", "/w", "feature/x", false⟩

/-- Options of a run on a second branch whose name ends in the same element. -/
def bugfixBranchOpts : CreateOptions := ⟨"/r/proj", "/w", "bugfix/x", false⟩

/-- The environment of `freshEnv` after the run on `slashBranchOpts`: the
registry of `/w` holds the record of that run. -/
def afterSlashBranchEnv : Env registry.Registry String :=
  fixedEnv (.notExist (.external "no such file or directory")) false none none none
    (.ok [⟨"x", "/w/proj-feature/x", 9000, "/r/proj"⟩]) none (.ok "space") none

/-- Options of the run of the scenario: branch `feat` of `/r/proj` into `/w`. -/
def featOpts : CreateOptions := ⟨"/r/proj", "/w", "feat", false⟩

end spaces

namespace cmd

/-- OpenOptions of src/cmd/open.go. -/
structure OpenOptions where
  DestDir : String
  WorkspaceName : String
  deriving DecidableEq, Repr

/-- The collaborators of `OpenWorkspace`: `os.Stat`, `IsWorktree` of package
cmd, and running an external command (`exec.Command(argv...).Run()`, `none`
for a nil error). -/
structure Env where
  Stat : String → StatResult
  IsWorktree : String → Bool
  Run : List String → Option GoError

/-- A call to a collaborator, with its arguments. -/
inductive Call where
  | osStat (path : String)
  | isWorktree (path : String)
  | exec (argv : List String)
  deriving DecidableEq, Repr

/-- A tmux operation: any external command whose program is `tmux`. -/
def Call.isTmux : Call → Bool
  | .exec argv => argv.head? == some "tmux"
  | _ => false

/-- Replace `.` and `:` by `_`, keep any other character. -/
def sanitizeChar (c : Char) : Char := if c = '.' ∨ c = ':' then '_' else c

/-- `SanitizeSessionName` of src/cmd/open.go. -/
def SanitizeSessionName (name : String) : String :=
  let name := stringsReplaceAll name "." "_"
  let name := stringsReplaceAll name ":" "_"
  name

/-- The command line of `tmuxSessionExists`. -/
def hasSessionArgv (name : String) : List String := ["tmux", "has-session", "-t", name]

/-- The command line of `tmuxAttach`. -/
def attachArgv (name : String) : List String := ["tmux", "attach-session", "-t", name]

/-- The command line of `tmuxNewSession`. -/
def newSessionArgv (name workdir : String) : List String :=
  ["tmux", "new-session", "-s", name, "-c", workdir]

/-- `tmuxSessionExists` of src/cmd/open.go: `cmd.Run() == nil`. -/
def tmuxSessionExists (env : Env) (name : String) : Bool :=
  (env.Run (hasSessionArgv name)).isNone

/-- `tmuxAttach` of src/cmd/open.go. -/
def tmuxAttach (env : Env) (name : String) : Option GoError :=
  env.Run (attachArgv name)

/-- `tmuxNewSession` of src/cmd/open.go. -/
def tmuxNewSession (env : Env) (name workdir : String) : Option GoError :=
  env.Run (newSessionArgv name workdir)

/-- What `OpenWorkspace` returns (`err`) and the calls it made. -/
structure Result where
  err : Option GoError
  calls : List Call
  deriving DecidableEq, Repr

/-- Line 37 of open.go: the workspace path. -/
def workspacePathOf (opts : OpenOptions) : String :=
  filepathJoin [opts.DestDir, opts.WorkspaceName]

/-- `OpenWorkspace` of src/cmd/open.go. -/
def OpenWorkspace (env : Env) (opts : OpenOptions) : Result :=
  let workspacePath := workspacePathOf opts
  match env.Stat workspacePath with
  | .notExist _ =>
    ⟨some (.errorf "workspace does not exist: %s" workspacePath), [.osStat workspacePath]⟩
  | .failed err =>
    ⟨some (.wrapf "failed to access workspace: %w" err), [.osStat workspacePath]⟩
  | .ok isDir =>
    if !isDir then
      ⟨some (.errorf "workspace path is not a directory: %s" workspacePath),
        [.osStat workspacePath]⟩
    else if !env.IsWorktree workspacePath then
      ⟨some (.errorf "not a git worktree: %s" workspacePath),
        [.osStat workspacePath, .isWorktree workspacePath]⟩
    else
      let sessionName := SanitizeSessionName opts.WorkspaceName
      if tmuxSessionExists env sessionName then
        ⟨tmuxAttach env sessionName,
          [.osStat workspacePath, .isWorktree workspacePath,
           .exec (hasSessionArgv sessionName), .exec (attachArgv sessionName)]⟩
      else
        ⟨tmuxNewSession env sessionName workspacePath,
          [.osStat workspacePath, .isWorktree workspacePath,
           .exec (hasSessionArgv sessionName),
           .exec (newSessionArgv sessionName workspacePath)]⟩

/-- An environment whose `os.Stat` and `IsWorktree` answer with the given
results whatever the path; `run` gives the result of an external command. -/
def fixedEnv (stat : StatResult) (isWorktree : Bool)
    (run : List String → Option GoError) : Env where
  Stat := fun _ => stat
  IsWorktree := fun _ => isWorktree
  Run := run

/-- A tmux in which exactly the session `a_b` exists: `has-session` and
`attach-session` on it succeed, every other command fails. -/
def tmuxWithSession : List String → Option GoError := fun argv =>
  if argv = ["tmux", "has-session", "-t", "a_b"] then none
  else if argv = ["tmux", "attach-session", "-t", "a_b"] then none
  else some (.external "exit status 1")

/-- A tmux without sessions, in which creating one succeeds. -/
def tmuxWithoutSession : List String → Option GoError := fun argv =>
  if argv.take 2 = ["tmux", "new-session"] then none
  else some (.external "exit status 1")

end cmd

/-! ## Strings -/

namespace GoLib

/-- Replacing a one-character string by a one-character string maps every
character on its own. -/
theorem replaceAllAux_single (a b : Char) (s : List Char) :
    replaceAllAux [a] [b] 0 s = s.map (fun c => if c = a then b else c) := by
  induction s with
  | nil => rfl
  | cons c cs ih =>
    by_cases h : c = a
    · subst h
      simp [replaceAllAux, List.isPrefixOf, ih]
    · have h' : (a == c) = false := by
        simp only [beq_eq_false_iff_ne, ne_eq]
        exact fun e => h e.symm
      simp [replaceAllAux, List.isPrefixOf, ih, h, h']

end GoLib

namespace cmd

theorem SanitizeSessionName_data (name : String) :
    (SanitizeSessionName name).data = name.data.map sanitizeChar := by
  have h1 : ("." : String).data = ['.'] := rfl
  have h2 : (":" : String).data = [':'] := rfl
  have h3 : ("_" : String).data = ['_'] := rfl
  simp only [SanitizeSessionName, stringsReplaceAll, h1, h2, h3, List.cons_ne_nil, if_false,
    replaceAllAux_single, List.map_map]
  apply List.map_congr_left
  intro c _
  simp only [Function.comp, sanitizeChar]
  by_cases hd : c = '.'
  · subst hd; decide
  · by_cases hc : c = ':'
    · subst hc; decide
    · simp [hd, hc]

theorem utf8Size_sanitizeChar (c : Char) : (sanitizeChar c).utf8Size = c.utf8Size := by
  unfold sanitizeChar
  split <;> rename_i h
  · rcases h with e | e <;> subst e <;> decide
  · rfl

theorem utf8ByteSize_go_map_sanitizeChar (s : List Char) :
    String.utf8ByteSize.go (s.map sanitizeChar) = String.utf8ByteSize.go s := by
  induction s with
  | nil => rfl
  | cons c cs ih =>
    simp only [List.map_cons, String.utf8ByteSize.go, ih, utf8Size_sanitizeChar]

/-- C7. For every name, `SanitizeSessionName name` is `name` with every `.`
and every `:` replaced by `_` and every other character kept in place; the
result has no `.` and no `:`, has the length of `name` (in characters and in
bytes), and is `name` itself when `name` has neither `.` nor `:`. -/
theorem SanitizeSessionName_spec (name : String) :
    (SanitizeSessionName name).data
        = name.data.map (fun c => if c = '.' ∨ c = ':' then '_' else c) ∧
      '.' ∉ (SanitizeSessionName name).data ∧
      ':' ∉ (SanitizeSessionName name).data ∧
      (SanitizeSessionName name).length = name.length ∧
      (SanitizeSessionName name).utf8ByteSize = name.utf8ByteSize ∧
      (('.' ∉ name.data ∧ ':' ∉ name.data) → SanitizeSessionName name = name) := by
  have hd := SanitizeSessionName_data name
  refine ⟨hd, ?_, ?_, ?_, ?_, ?_⟩
  · rw [hd]
    simp only [List.mem_map, not_exists, not_and]
    intro c _
    unfold sanitizeChar
    split <;> rename_i h
    · decide
    · exact fun e => h (Or.inl e)
  · rw [hd]
    simp only [List.mem_map, not_exists, not_and]
    intro c _
    unfold sanitizeChar
    split <;> rename_i h
    · decide
    · exact fun e => h (Or.inr e)
  · show (SanitizeSessionName name).data.length = name.data.length
    rw [hd, List.length_map]
  · show String.utf8ByteSize.go (SanitizeSessionName name).data
        = String.utf8ByteSize.go name.data
    rw [hd]
    exact utf8ByteSize_go_map_sanitizeChar name.data
  · rintro ⟨h1, h2⟩
    apply String.ext
    rw [hd]
    conv_rhs => rw [← List.map_id name.data]
    apply List.map_congr_left
    intro c hc
    unfold sanitizeChar
    rw [if_neg]
    · rfl
    · rintro (e | e)
      · exact h1 (e ▸ hc)
      · exact h2 (e ▸ hc)

end cmd

/-! ## Paths -/

namespace GoLib

theorem filepathClean_tests : ∀ t ∈ cleanTests, filepathClean t.1 = t.2 := by decide

theorem filepathBase_tests : ∀ t ∈ baseTests, filepathBase t.1 = t.2 := by decide

theorem filepathJoin_tests : ∀ t ∈ joinTests, filepathJoin t.1 = t.2 := by decide

theorem splitElements_ne_nil (p : List Char) : splitElements p ≠ [] := by
  cases p with
  | nil => simp [splitElements]
  | cons c cs =>
    unfold splitElements
    split
    · simp
    · split <;> simp

theorem splitElements_cons (c : Char) (cs : List Char) :
    splitElements (c :: cs) =
      if isPathSeparator c then [] :: splitElements cs
      else
        match splitElements cs with
        | [] => [[c]]
        | e :: es => (c :: e) :: es := rfl

theorem splitElements_append_sep (d n : List Char) :
    splitElements (d ++ '/' :: n) = splitElements d ++ splitElements n := by
  induction d with
  | nil =>
    rw [List.nil_append, splitElements_cons]
    rfl
  | cons c cs ih =>
    rw [List.cons_append, splitElements_cons, splitElements_cons, ih]
    by_cases hc : isPathSeparator c = true
    · simp [hc]
    · simp only [hc]
      cases hs : splitElements cs with
      | nil => exact absurd hs (splitElements_ne_nil cs)
      | cons e es => simp

theorem splitElements_no_sep (n : List Char) (h : '/' ∉ n) : splitElements n = [n] := by
  induction n with
  | nil => rfl
  | cons c cs ih =>
    have hc : isPathSeparator c = false := by
      simp only [isPathSeparator, beq_eq_false_iff_ne, ne_eq]
      intro e
      exact h (e ▸ List.mem_cons_self _ _)
    have hcs : '/' ∉ cs := fun hm => h (List.mem_cons_of_mem _ hm)
    rw [splitElements_cons, ih hcs]
    simp [hc]

theorem joinElements_cons_cons (e e' : List Char) (es : List (List Char)) :
    joinElements (e :: e' :: es) = e ++ '/' :: joinElements (e' :: es) := rfl

theorem joinElements_append_singleton (ys : List (List Char)) (n : List Char) :
    joinElements (ys ++ [n]) = if ys = [] then n else joinElements ys ++ '/' :: n := by
  induction ys with
  | nil => rfl
  | cons y ys ih =>
    cases ys with
    | nil => rfl
    | cons z zs =>
      rw [if_neg (List.cons_ne_nil _ _)] at ih
      rw [if_neg (List.cons_ne_nil _ _), List.cons_append, List.cons_append,
        joinElements_cons_cons, ← List.cons_append, ih, joinElements_cons_cons]
      simp

/-- A path element that `filepath.Clean` keeps as it is: not empty, without a
separator, and neither `.` nor `..`. -/
theorem cleanElement_real (rooted : Bool) (out : List (List Char)) (n : List Char)
    (h0 : n ≠ []) (h1 : n ≠ ['.']) (h2 : n ≠ ['.', '.']) :
    cleanElement rooted out n = n :: out := by
  simp [cleanElement, h0, h1, h2]

/-- Cleaning a path whose last element `n` is a real element gives a path
that ends in `n`, with nothing or a separator before it. -/
theorem filepathClean_last_element (p n : List Char) (xs : List (List Char))
    (hsplit : splitElements p = xs ++ [n])
    (h0 : n ≠ []) (h1 : n ≠ ['.']) (h2 : n ≠ ['.', '.']) :
    ∃ pre, (filepathClean ⟨p⟩).data = pre ++ n ∧ (pre = [] ∨ ∃ q, pre = q ++ ['/']) := by
  have hout : ∀ rooted, ((splitElements p).foldl (cleanElement rooted) []).reverse
      = (xs.foldl (cleanElement rooted) []).reverse ++ [n] := by
    intro rooted
    rw [hsplit, List.foldl_append, List.foldl_cons, List.foldl_nil,
      cleanElement_real rooted _ n h0 h1 h2, List.reverse_cons]
  have hbody : ∀ rooted, ∃ pre,
      joinElements ((splitElements p).foldl (cleanElement rooted) []).reverse = pre ++ n ∧
        (pre = [] ∨ ∃ q, pre = q ++ ['/']) := by
    intro rooted
    rw [hout rooted, joinElements_append_singleton]
    split
    · exact ⟨[], rfl, Or.inl rfl⟩
    · exact ⟨joinElements (xs.foldl (cleanElement rooted) []).reverse ++ ['/'],
        by simp, Or.inr ⟨_, rfl⟩⟩
  cases hr : (p.head? == some '/') with
  | true =>
    obtain ⟨pre, hpre, hq⟩ := hbody true
    refine ⟨'/' :: pre, ?_, Or.inr ?_⟩
    · simp only [filepathClean, hr, if_true, hpre, List.cons_append]
    · rcases hq with rfl | ⟨q, rfl⟩
      · exact ⟨[], rfl⟩
      · exact ⟨'/' :: q, rfl⟩
  | false =>
    obtain ⟨pre, hpre, hq⟩ := hbody false
    have hne : pre ++ n ≠ [] := by
      intro e
      exact h0 (List.append_eq_nil.mp e).2
    refine ⟨pre, ?_, hq⟩
    simp only [filepathClean, hr, hpre, hne, if_false, Bool.false_eq_true]

/-- The base name of a path that ends in an element `n` without separator,
with nothing or a separator before it, is `n`. -/
theorem filepathBase_last_element (pre n : List Char) (h0 : n ≠ []) (hsep : '/' ∉ n)
    (hpre : pre = [] ∨ ∃ q, pre = q ++ ['/']) :
    filepathBase ⟨pre ++ n⟩ = ⟨n⟩ := by
  have hnsep : ∀ c ∈ n.reverse, isPathSeparator c = false := by
    intro c hc
    simp only [isPathSeparator, beq_eq_false_iff_ne, ne_eq]
    intro e
    exact hsep (e ▸ List.mem_reverse.mp hc)
  have hne : (⟨pre ++ n⟩ : String) ≠ "" := by
    intro e
    have := congrArg String.data e
    exact h0 (List.append_eq_nil.mp this).2
  obtain ⟨l, m, hl⟩ : ∃ l m, n.reverse = l :: m := by
    cases hr : n.reverse with
    | nil => exact absurd (List.reverse_eq_nil_iff.mp hr) h0
    | cons l m => exact ⟨l, m, rfl⟩
  have hlsep : isPathSeparator l = false := hnsep l (by rw [hl]; exact List.mem_cons_self _ _)
  have hstrip : ((pre ++ n).reverse.dropWhile isPathSeparator).reverse = pre ++ n := by
    rw [List.reverse_append, hl, List.cons_append, List.dropWhile_cons_of_neg (by simp [hlsep]),
      ← List.cons_append, ← hl, ← List.reverse_append, List.reverse_reverse]
  have hlast : ((pre ++ n).reverse.takeWhile (fun c => !isPathSeparator c)) = n.reverse := by
    rw [List.reverse_append, List.takeWhile_append_of_pos (by
      intro c hc; simp [hnsep c hc])]
    rcases hpre with rfl | ⟨q, rfl⟩
    · simp
    · simp [isPathSeparator]
  unfold filepathBase
  rw [if_neg hne]
  simp only [hstrip, hlast, List.reverse_reverse, h0, if_false]

/-- The base name of `filepath.Join(d, n)` is `n` when `n` is a real path
element: not empty, without separator, neither `.` nor `..`. -/
theorem filepathBase_filepathJoin (d n : String) (h0 : n.data ≠ [])
    (hsep : '/' ∉ n.data) (h1 : n.data ≠ ['.']) (h2 : n.data ≠ ['.', '.']) :
    filepathBase (filepathJoin [d, n]) = n := by
  have hn : n ≠ "" := fun e => h0 (by rw [e])
  have key : ∀ p xs, splitElements p = xs ++ [n.data] →
      filepathBase (filepathClean ⟨p⟩) = n := by
    intro p xs hsplit
    obtain ⟨pre, hdata, hpre⟩ := filepathClean_last_element p n.data xs hsplit h0 h1 h2
    have : filepathClean ⟨p⟩ = ⟨pre ++ n.data⟩ := String.ext hdata
    rw [this, filepathBase_last_element pre n.data h0 hsep hpre]
  by_cases hd : d = ""
  · subst hd
    simp only [filepathJoin, ne_eq, not_true_eq_false, if_false, hn, not_false_eq_true, if_true,
      stringsJoin]
    exact key n.data [] (by rw [splitElements_no_sep n.data hsep]; rfl)
  · simp only [filepathJoin, ne_eq, hd, not_false_eq_true, if_true, stringsJoin]
    exact key _ (splitElements d.data)
      (by rw [splitElements_append_sep, splitElements_no_sep n.data hsep])

end GoLib

/-! ## Create -/

namespace spaces

theorem Create_stat_ok {R S : Type} (env : Env R S) (opts : CreateOptions)
    (h : (env.Stat (worktreePathOf opts)).errIsNil = true) :
    Create env opts = ⟨"", some (.errorf "worktree directory already exists: %s"
      (worktreePathOf opts)), [.osStat (worktreePathOf opts)]⟩ := by
  simp only [Create, h, if_true]

theorem Create_branch_conflict {R S : Type} (env : Env R S) (opts : CreateOptions)
    (hstat : (env.Stat (worktreePathOf opts)).errIsNil = false)
    (hexists : env.BranchExists opts.RepoRoot opts.BranchName = true)
    (hreuse : opts.ReuseExistingBranch = false) :
    Create env opts = ⟨"", some (.errorf "branch %q already exists" opts.BranchName),
      callsToBranchExists R S opts⟩ := by
  simp [Create, hstat, hexists, hreuse, callsToBranchExists]

theorem Create_branch_failed {R S : Type} (env : Env R S) (opts : CreateOptions)
    (e : GoError)
    (hstat : (env.Stat (worktreePathOf opts)).errIsNil = false)
    (hexists : env.BranchExists opts.RepoRoot opts.BranchName = false)
    (hcreate : env.CreateBranch opts.RepoRoot opts.BranchName = some e) :
    Create env opts = ⟨"", some (.wrapf "failed to create branch: %w" e),
      callsToBranchExists R S opts ++
        [.gitCreateBranch opts.RepoRoot opts.BranchName]⟩ := by
  simp [Create, hstat, hexists, hcreate, callsToBranchExists]

theorem Create_new_branch {R S : Type} (env : Env R S) (opts : CreateOptions)
    (hstat : (env.Stat (worktreePathOf opts)).errIsNil = false)
    (hexists : env.BranchExists opts.RepoRoot opts.BranchName = false)
    (hcreate : env.CreateBranch opts.RepoRoot opts.BranchName = none) :
    Create env opts = addWorktreeAndRegister env opts (worktreePathOf opts) true
      (callsToBranchExists R S opts ++
        [.gitCreateBranch opts.RepoRoot opts.BranchName]) := by
  simp [Create, hstat, hexists, hcreate, callsToBranchExists]

theorem Create_reuse_branch {R S : Type} (env : Env R S) (opts : CreateOptions)
    (hstat : (env.Stat (worktreePathOf opts)).errIsNil = false)
    (hexists : env.BranchExists opts.RepoRoot opts.BranchName = true)
    (hreuse : opts.ReuseExistingBranch = true) :
    Create env opts = addWorktreeAndRegister env opts (worktreePathOf opts) false
      (callsToBranchExists R S opts) := by
  simp [Create, hstat, hexists, hreuse, callsToBranchExists]

/-- C1. When `os.Stat` on the worktree path (`DestDir` joined with
`base(RepoRoot)-BranchName`) succeeds, that is the path exists, `Create`
returns an empty path and the error "worktree directory already exists", and
its only collaborator call is that `os.Stat`: no call into git
(BranchExists, CreateBranch, AddWorktree, DeleteBranch), no registry load,
add or save, no hook. -/
theorem Create_existing_path {R S : Type} (env : Env R S) (opts : CreateOptions)
    (isDir : Bool)
    (hstat : env.Stat (filepathJoin [opts.DestDir,
      filepathBase opts.RepoRoot ++ "-" ++ opts.BranchName]) = .ok isDir) :
    (Create env opts).path = "" ∧
      (Create env opts).err = some (.errorf "worktree directory already exists: %s"
        (filepathJoin [opts.DestDir,
          filepathBase opts.RepoRoot ++ "-" ++ opts.BranchName])) ∧
      (Create env opts).calls = [.osStat (filepathJoin [opts.DestDir,
        filepathBase opts.RepoRoot ++ "-" ++ opts.BranchName])] ∧
      ∀ c ∈ (Create env opts).calls,
        c.isGit = false ∧ c.isRegistry = false ∧ c.isHook = false := by
  have h : (env.Stat (worktreePathOf opts)).errIsNil = true := by
    show (env.Stat (filepathJoin [opts.DestDir,
      filepathBase opts.RepoRoot ++ "-" ++ opts.BranchName])).errIsNil = true
    rw [hstat]; rfl
  rw [Create_stat_ok env opts h]
  refine ⟨rfl, rfl, rfl, ?_⟩
  intro c hmem
  rw [List.mem_singleton] at hmem
  subst hmem
  exact ⟨rfl, rfl, rfl⟩

theorem addWorktreeAndRegister_failed {R S : Type} (env : Env R S) (opts : CreateOptions)
    (path : String) (created : Bool) (calls : List (Call R S)) (e : GoError)
    (hadd : env.AddWorktree opts.RepoRoot path opts.BranchName = some e) :
    addWorktreeAndRegister env opts path created calls =
      ⟨"", some (.wrapf "failed to create worktree: %w" e),
        calls ++ [.gitAddWorktree opts.RepoRoot path opts.BranchName] ++
          (if created then [.gitDeleteBranch opts.RepoRoot opts.BranchName] else [])⟩ := by
  simp only [addWorktreeAndRegister, hadd]

theorem addWorktreeAndRegister_ok {R S : Type} (env : Env R S) (opts : CreateOptions)
    (path : String) (created : Bool) (calls : List (Call R S))
    (hadd : env.AddWorktree opts.RepoRoot path opts.BranchName = none) :
    addWorktreeAndRegister env opts path created calls =
      ⟨path, none,
        calls ++ [.gitAddWorktree opts.RepoRoot path opts.BranchName] ++
          registerSpace env opts path ++ runCreateHooks env path⟩ := by
  simp only [addWorktreeAndRegister, hadd]

/-- C2. When `os.Stat` on the worktree path fails (the path does not exist)
and `git.AddWorktree` fails with `e`: if the branch did not exist and this run
created it, `Create` calls `git.DeleteBranch` on that branch exactly once,
after the failed `AddWorktree`, and returns "failed to create worktree"
wrapping `e`, whatever `DeleteBranch` returns; if the branch existed and
`ReuseExistingBranch` is set, `Create` makes no `DeleteBranch` call and
returns the same error. -/
theorem Create_worktree_failure_rollback {R S : Type} (env : Env R S)
    (opts : CreateOptions) (e : GoError)
    (hstat : (env.Stat (worktreePathOf opts)).errIsNil = false)
    (hadd : env.AddWorktree opts.RepoRoot (worktreePathOf opts) opts.BranchName = some e) :
    (env.BranchExists opts.RepoRoot opts.BranchName = false →
      env.CreateBranch opts.RepoRoot opts.BranchName = none →
        (Create env opts).path = "" ∧
        (Create env opts).err = some (.wrapf "failed to create worktree: %w" e) ∧
        (Create env opts).calls =
          [.osStat (worktreePathOf opts),
           .gitBranchExists opts.RepoRoot opts.BranchName,
           .gitCreateBranch opts.RepoRoot opts.BranchName,
           .gitAddWorktree opts.RepoRoot (worktreePathOf opts) opts.BranchName,
           .gitDeleteBranch opts.RepoRoot opts.BranchName] ∧
        (Create env opts).calls.filter Call.isDeleteBranch =
          [.gitDeleteBranch opts.RepoRoot opts.BranchName]) ∧
    (env.BranchExists opts.RepoRoot opts.BranchName = true →
      opts.ReuseExistingBranch = true →
        (Create env opts).path = "" ∧
        (Create env opts).err = some (.wrapf "failed to create worktree: %w" e) ∧
        (Create env opts).calls =
          [.osStat (worktreePathOf opts),
           .gitBranchExists opts.RepoRoot opts.BranchName,
           .gitAddWorktree opts.RepoRoot (worktreePathOf opts) opts.BranchName] ∧
        (Create env opts).calls.filter Call.isDeleteBranch = []) := by
  constructor
  · intro hexists hcreate
    rw [Create_new_branch env opts hstat hexists hcreate,
      addWorktreeAndRegister_failed env opts _ _ _ e hadd]
    exact ⟨rfl, rfl, rfl, rfl⟩
  · intro hexists hreuse
    rw [Create_reuse_branch env opts hstat hexists hreuse,
      addWorktreeAndRegister_failed env opts _ _ _ e hadd]
    exact ⟨rfl, rfl, rfl, rfl⟩

/-- C3. When `os.Stat` on the worktree path fails (the path does not exist),
the branch exists and `ReuseExistingBranch` is false, `Create` returns an
empty path and the error "branch ... already exists", and its only
collaborator calls are `os.Stat` and `git.BranchExists`: no CreateBranch,
AddWorktree or DeleteBranch, no registry call, no hook. -/
theorem Create_branch_conflict_no_effects {R S : Type} (env : Env R S)
    (opts : CreateOptions)
    (hstat : (env.Stat (worktreePathOf opts)).errIsNil = false)
    (hexists : env.BranchExists opts.RepoRoot opts.BranchName = true)
    (hreuse : opts.ReuseExistingBranch = false) :
    (Create env opts).path = "" ∧
      (Create env opts).err = some (.errorf "branch %q already exists" opts.BranchName) ∧
      (Create env opts).calls =
        [.osStat (worktreePathOf opts),
         .gitBranchExists opts.RepoRoot opts.BranchName] ∧
      ∀ c ∈ (Create env opts).calls,
        c.isGitWrite = false ∧ c.isRegistry = false ∧ c.isHook = false := by
  rw [Create_branch_conflict env opts hstat hexists hreuse]
  refine ⟨rfl, rfl, rfl, ?_⟩
  intro c hmem
  simp only [callsToBranchExists, List.mem_cons, List.mem_singleton, List.not_mem_nil,
    or_false] at hmem
  rcases hmem with h | h <;> subst h <;> exact ⟨rfl, rfl, rfl⟩

theorem registerSpace_not_unwind {R S : Type} (env : Env R S) (opts : CreateOptions)
    (path : String) : ∀ c ∈ registerSpace env opts path, c.isUnwind = false := by
  intro c hmem
  unfold registerSpace at hmem
  split at hmem
  · simp only [List.mem_cons, List.mem_singleton, List.not_mem_nil, or_false] at hmem
    rcases hmem with h | h | h | h <;> subst h <;> rfl
  · rw [List.mem_singleton] at hmem
    subst hmem; rfl

theorem runCreateHooks_not_unwind {R S : Type} (env : Env R S) (path : String) :
    ∀ c ∈ runCreateHooks env path, c.isUnwind = false := by
  intro c hmem
  unfold runCreateHooks at hmem
  split at hmem
  · simp only [List.mem_cons, List.mem_singleton, List.not_mem_nil, or_false] at hmem
    rcases hmem with h | h <;> subst h <;> rfl
  · rw [List.mem_singleton] at hmem
    subst hmem; rfl

/-- The runs of `Create` in which `git.AddWorktree` is called: the worktree
path is absent and either a new branch was created or an existing one is
reused. -/
theorem Create_addWorktree_called {R S : Type} (env : Env R S) (opts : CreateOptions)
    (hcall : Call.gitAddWorktree opts.RepoRoot (worktreePathOf opts) opts.BranchName
      ∈ (Create env opts).calls) :
    ∃ created calls, Create env opts =
        addWorktreeAndRegister env opts (worktreePathOf opts) created calls ∧
      ∀ c ∈ calls, c.isUnwind = false ∧ c.isRegistry = false := by
  cases hstat : (env.Stat (worktreePathOf opts)).errIsNil with
  | true =>
    rw [Create_stat_ok env opts hstat] at hcall
    simp at hcall
  | false =>
    cases hexists : env.BranchExists opts.RepoRoot opts.BranchName with
    | true =>
      cases hreuse : opts.ReuseExistingBranch with
      | false =>
        rw [Create_branch_conflict env opts hstat hexists hreuse] at hcall
        simp [callsToBranchExists] at hcall
      | true =>
        refine ⟨false, _, Create_reuse_branch env opts hstat hexists hreuse, ?_⟩
        intro c hmem
        simp only [callsToBranchExists, List.mem_cons, List.mem_singleton,
          List.not_mem_nil, or_false] at hmem
        rcases hmem with h | h <;> subst h <;> exact ⟨rfl, rfl⟩
    | false =>
      cases hcreate : env.CreateBranch opts.RepoRoot opts.BranchName with
      | some e =>
        rw [Create_branch_failed env opts e hstat hexists hcreate] at hcall
        simp [callsToBranchExists] at hcall
      | none =>
        refine ⟨true, _, Create_new_branch env opts hstat hexists hcreate, ?_⟩
        intro c hmem
        simp only [callsToBranchExists, List.mem_append, List.mem_cons, List.mem_singleton,
          List.not_mem_nil, or_false] at hmem
        rcases hmem with (h | h) | h <;> subst h <;> exact ⟨rfl, rfl⟩

/-- C4. Once `git.AddWorktree` has been called and has succeeded, `Create`
returns the worktree path and a nil error, whatever registry `Load` and
`Save`, opening the space and the on-create hook return; no call of the run
is a `RemoveWorktree` or a `DeleteBranch`. -/
theorem Create_after_worktree_success {R S : Type} (env : Env R S)
    (opts : CreateOptions)
    (hcall : Call.gitAddWorktree opts.RepoRoot (worktreePathOf opts) opts.BranchName
      ∈ (Create env opts).calls)
    (hadd : env.AddWorktree opts.RepoRoot (worktreePathOf opts) opts.BranchName = none) :
    (Create env opts).path = filepathJoin [opts.DestDir,
        filepathBase opts.RepoRoot ++ "-" ++ opts.BranchName] ∧
      (Create env opts).err = none ∧
      ∀ c ∈ (Create env opts).calls, c.isUnwind = false := by
  obtain ⟨created, calls, hc, hcalls⟩ := Create_addWorktree_called env opts hcall
  rw [hc, addWorktreeAndRegister_ok env opts _ _ _ hadd]
  refine ⟨rfl, rfl, ?_⟩
  intro c hmem
  simp only [List.mem_append, List.mem_singleton] at hmem
  rcases hmem with ((h | h) | h) | h
  · exact (hcalls c h).1
  · subst h; rfl
  · exact registerSpace_not_unwind env opts _ c h
  · exact runCreateHooks_not_unwind env _ c h

theorem registerSpace_loaded {R S : Type} (env : Env R S) (opts : CreateOptions)
    (path : String) (reg : R) (hload : env.Load opts.DestDir = .ok reg) :
    registerSpace env opts path =
      [.registryLoad opts.DestDir, .registryAllocatePort reg,
       .registryAdd reg (filepathBase path) path (env.AllocatePort reg) opts.RepoRoot,
       .registrySave (env.Add reg (filepathBase path) path (env.AllocatePort reg)
         opts.RepoRoot) opts.DestDir] := by
  simp only [registerSpace, hload]

theorem runCreateHooks_not_registry {R S : Type} (env : Env R S) (path : String) :
    (runCreateHooks env path).filter Call.isRegistry = [] := by
  unfold runCreateHooks
  split <;> rfl

theorem filter_eq_nil_of_all_false {α : Type} (p : α → Bool) (l : List α)
    (h : ∀ a ∈ l, p a = false) : l.filter p = [] := by
  rw [List.filter_eq_nil_iff]
  intro a ha
  rw [h a ha]
  exact Bool.false_ne_true

theorem Create_registry_calls {R S : Type} (env : Env R S) (opts : CreateOptions) (reg : R)
    (hcall : Call.gitAddWorktree opts.RepoRoot (worktreePathOf opts) opts.BranchName
      ∈ (Create env opts).calls)
    (hadd : env.AddWorktree opts.RepoRoot (worktreePathOf opts) opts.BranchName = none)
    (hload : env.Load opts.DestDir = .ok reg) :
    (Create env opts).path = worktreePathOf opts ∧
    (Create env opts).calls.filter Call.isRegistry =
      [.registryLoad opts.DestDir, .registryAllocatePort reg,
       .registryAdd reg (filepathBase (worktreePathOf opts)) (worktreePathOf opts)
         (env.AllocatePort reg) opts.RepoRoot,
       .registrySave (env.Add reg (filepathBase (worktreePathOf opts)) (worktreePathOf opts)
         (env.AllocatePort reg) opts.RepoRoot) opts.DestDir] := by
  obtain ⟨created, calls, hc, hcalls⟩ := Create_addWorktree_called env opts hcall
  rw [hc, addWorktreeAndRegister_ok env opts _ _ _ hadd]
  refine ⟨rfl, ?_⟩
  simp only [List.filter_append, runCreateHooks_not_registry, List.append_nil,
    filter_eq_nil_of_all_false Call.isRegistry calls (fun c h => (hcalls c h).2),
    List.nil_append, registerSpace_loaded env opts _ reg hload]
  rfl

/-- C6. In every run of `Create` in which `git.AddWorktree` succeeds and the
registry of `DestDir` loads as `reg`, the registry calls are, in this order
and nothing else: `Load(DestDir)`, `AllocatePort` on `reg`, one `Add` on `reg`
of the record with the returned path, the port that `AllocatePort` returned
on `reg` and `opts.RepoRoot`, and `Save` of the registry after that `Add` to
`DestDir`.  With the registry operations as specified (lowest free port, from
9000) and an empty registry for `/w`, `Create` of branch `feat` of `/r/proj`
into `/w` returns `/w/proj-feat` and saves the registry holding exactly the
record (`proj-feat`, `/w/proj-feat`, 9000, `/r/proj`). -/
theorem Create_registers_space :
    (∀ (R S : Type) (env : Env R S) (opts : CreateOptions) (reg : R),
      Call.gitAddWorktree opts.RepoRoot (worktreePathOf opts) opts.BranchName
          ∈ (Create env opts).calls →
        env.AddWorktree opts.RepoRoot (worktreePathOf opts) opts.BranchName = none →
        env.Load opts.DestDir = .ok reg →
        (Create env opts).calls.filter Call.isRegistry =
          [.registryLoad opts.DestDir, .registryAllocatePort reg,
           .registryAdd reg (filepathBase (Create env opts).path) (Create env opts).path
             (env.AllocatePort reg) opts.RepoRoot,
           .registrySave (env.Add reg (filepathBase (Create env opts).path)
             (Create env opts).path (env.AllocatePort reg) opts.RepoRoot) opts.DestDir]) ∧
    (∀ (S : Type) (env : Env registry.Registry S) (reuse : Bool),
      env.AllocatePort = registry.AllocatePort 9000 →
        env.Add = registry.Add →
        env.Load "/w" = .ok [] →
        Call.gitAddWorktree "/r/proj" "/w/proj-feat" "feat"
          ∈ (Create env ⟨"/r/proj", "/w", "feat", reuse⟩).calls →
        env.AddWorktree "/r/proj" "/w/proj-feat" "feat" = none →
        (Create env ⟨"/r/proj", "/w", "feat", reuse⟩).path = "/w/proj-feat" ∧
        (Create env ⟨"/r/proj", "/w", "feat", reuse⟩).err = none ∧
        (Create env ⟨"/r/proj", "/w", "feat", reuse⟩).calls.filter Call.isRegistry =
          [.registryLoad "/w", .registryAllocatePort [],
           .registryAdd [] "proj-feat" "/w/proj-feat" 9000 "/r/proj",
           .registrySave [⟨"proj-feat", "/w/proj-feat", 9000, "/r/proj"⟩] "/w"]) := by
  constructor
  · intro R S env opts reg hcall hadd hload
    obtain ⟨hp, hf⟩ := Create_registry_calls env opts reg hcall hadd hload
    rw [hf, hp]
  · intro S env reuse halloc hadd' hload hcall hadd
    have hpath : worktreePathOf ⟨"/r/proj", "/w", "feat", reuse⟩ = "/w/proj-feat" := by
      show filepathJoin ["/w", filepathBase "/r/proj" ++ "-" ++ "feat"] = "/w/proj-feat"
      decide
    have hbase : filepathBase "/w/proj-feat" = "proj-feat" := by decide
    have h := Create_registry_calls env ⟨"/r/proj", "/w", "feat", reuse⟩ []
      (by rw [hpath]; exact hcall) (by rw [hpath]; exact hadd) hload
    obtain ⟨created, calls, hc, -⟩ := Create_addWorktree_called env
      ⟨"/r/proj", "/w", "feat", reuse⟩ (by rw [hpath]; exact hcall)
    rw [hpath] at h hc
    refine ⟨h.1, ?_, ?_⟩
    · rw [hc, addWorktreeAndRegister_ok env _ _ _ _ hadd]
    · rw [h.2, hbase, halloc, hadd']
      rfl

end spaces

/-! ## The name of the registered record -/

namespace GoLib

theorem filepathBase_no_sep (r : String) (h : filepathBase r ≠ "/") :
    '/' ∉ (filepathBase r).data := by
  unfold filepathBase at h ⊢
  by_cases hr : r = ""
  · rw [if_pos hr]
    decide
  · rw [if_neg hr] at h ⊢
    simp only at h ⊢
    split
    · rename_i hl
      rw [if_pos hl] at h
      exact absurd rfl h
    · intro hmem
      have hmem' := List.mem_reverse.mp hmem
      have := List.mem_takeWhile_imp hmem'
      simp [isPathSeparator] at this

end GoLib

namespace spaces

/-- The name `base(RepoRoot)-BranchName` is a real path element when neither
part holds a separator. -/
theorem spaceName_real (opts : CreateOptions) (hrepo : filepathBase opts.RepoRoot ≠ "/")
    (hbranch : '/' ∉ opts.BranchName.data) :
    (filepathBase opts.RepoRoot ++ "-" ++ opts.BranchName).data ≠ [] ∧
      '/' ∉ (filepathBase opts.RepoRoot ++ "-" ++ opts.BranchName).data ∧
      (filepathBase opts.RepoRoot ++ "-" ++ opts.BranchName).data ≠ ['.'] ∧
      (filepathBase opts.RepoRoot ++ "-" ++ opts.BranchName).data ≠ ['.', '.'] := by
  have hd : (filepathBase opts.RepoRoot ++ "-" ++ opts.BranchName).data
      = (filepathBase opts.RepoRoot).data ++ '-' :: opts.BranchName.data := by
    simp [String.data_append]
  have hdash : '-' ∈ (filepathBase opts.RepoRoot ++ "-" ++ opts.BranchName).data := by
    rw [hd]; simp
  refine ⟨?_, ?_, ?_, ?_⟩
  · intro e; rw [e] at hdash; simp at hdash
  · rw [hd]
    simp only [List.mem_append, List.mem_cons, not_or]
    exact ⟨filepathBase_no_sep _ hrepo, by decide, hbranch⟩
  · intro e; rw [e] at hdash; revert hdash; decide
  · intro e; rw [e] at hdash; revert hdash; decide

/-- Every run of `Create` either returns early with an error, having made
only calls of the prelude, or goes on to `git.AddWorktree`. -/
theorem Create_shape {R S : Type} (env : Env R S) (opts : CreateOptions) :
    (∃ e calls, Create env opts = ⟨"", some e, calls⟩ ∧ ∀ c ∈ calls, c.isPrelude = true) ∨
    (∃ created calls, Create env opts =
        addWorktreeAndRegister env opts (worktreePathOf opts) created calls ∧
      ∀ c ∈ calls, c.isPrelude = true) := by
  have hpre : ∀ c ∈ callsToBranchExists R S opts, c.isPrelude = true := by
    intro c hmem
    simp only [callsToBranchExists, List.mem_cons, List.mem_singleton, List.not_mem_nil,
      or_false] at hmem
    rcases hmem with h | h <;> subst h <;> rfl
  have hpre' : ∀ c ∈ callsToBranchExists R S opts ++
      [.gitCreateBranch opts.RepoRoot opts.BranchName], c.isPrelude = true := by
    intro c hmem
    rw [List.mem_append, List.mem_singleton] at hmem
    rcases hmem with h | h
    · exact hpre c h
    · subst h; rfl
  cases hstat : (env.Stat (worktreePathOf opts)).errIsNil with
  | true =>
    refine Or.inl ⟨_, _, Create_stat_ok env opts hstat, ?_⟩
    intro c hmem
    rw [List.mem_singleton] at hmem
    subst hmem; rfl
  | false =>
    cases hexists : env.BranchExists opts.RepoRoot opts.BranchName with
    | true =>
      cases hreuse : opts.ReuseExistingBranch with
      | false => exact Or.inl ⟨_, _, Create_branch_conflict env opts hstat hexists hreuse, hpre⟩
      | true => exact Or.inr ⟨_, _, Create_reuse_branch env opts hstat hexists hreuse, hpre⟩
    | false =>
      cases hcreate : env.CreateBranch opts.RepoRoot opts.BranchName with
      | some e =>
        exact Or.inl ⟨_, _, Create_branch_failed env opts e hstat hexists hcreate, hpre'⟩
      | none => exact Or.inr ⟨_, _, Create_new_branch env opts hstat hexists hcreate, hpre'⟩

theorem registerSpace_add {R S : Type} (env : Env R S) (opts : CreateOptions)
    (wt : String) (reg : R) (name path : String) (port : Int) (repo : String)
    (h : Call.registryAdd reg name path port repo ∈ registerSpace env opts wt) :
    name = filepathBase wt ∧ path = wt ∧ port = env.AllocatePort reg ∧
      repo = opts.RepoRoot ∧ env.Load opts.DestDir = .ok reg := by
  unfold registerSpace at h
  split at h
  · rename_i reg' hload
    simp only [List.mem_cons, List.mem_singleton, List.not_mem_nil, or_false,
      Call.registryAdd.injEq, false_or] at h
    simp only [reduceCtorEq, false_or, or_false] at h
    obtain ⟨rfl, rfl, rfl, rfl, rfl⟩ := h
    exact ⟨rfl, rfl, rfl, rfl, hload⟩
  · simp at h

/-- A registry `Add` in a run of `Create` is the one of the registration
step: the run returned the worktree path without error, and the record has
the base name of that path, that path, the allocated port and the
repository root. -/
theorem Create_add_call {R S : Type} (env : Env R S) (opts : CreateOptions)
    (reg : R) (name path : String) (port : Int) (repo : String)
    (h : Call.registryAdd reg name path port repo ∈ (Create env opts).calls) :
    (Create env opts).err = none ∧ (Create env opts).path = worktreePathOf opts ∧
      name = filepathBase (worktreePathOf opts) ∧ path = worktreePathOf opts ∧
      port = env.AllocatePort reg ∧ repo = opts.RepoRoot := by
  rcases Create_shape env opts with ⟨e, calls, hc, hpre⟩ | ⟨created, calls, hc, hpre⟩
  · rw [hc] at h
    exact absurd (hpre _ h) (by simp [Call.isPrelude])
  · rw [hc] at h ⊢
    cases hadd : env.AddWorktree opts.RepoRoot (worktreePathOf opts) opts.BranchName with
    | some e =>
      rw [addWorktreeAndRegister_failed env opts _ _ _ e hadd] at h
      simp only [List.mem_append, List.mem_singleton] at h
      rcases h with (h | h) | h
      · exact absurd (hpre _ h) (by simp [Call.isPrelude])
      · exact absurd h (by simp)
      · split at h <;> simp at h
    | none =>
      rw [addWorktreeAndRegister_ok env opts _ _ _ hadd] at h ⊢
      simp only [List.mem_append, List.mem_singleton] at h
      rcases h with ((h | h) | h) | h
      · exact absurd (hpre _ h) (by simp [Call.isPrelude])
      · exact absurd h (by simp)
      · obtain ⟨h1, h2, h3, h4, -⟩ := registerSpace_add env opts _ reg name path port repo h
        exact ⟨rfl, rfl, h1, h2, h3, h4⟩
      · unfold runCreateHooks at h
        split at h <;> simp at h

/-- What line 56 of create.go registers: the record's path is the returned
path, `DestDir` joined with `base(RepoRoot)-BranchName`, and the record's
name is `filepath.Base` of that path.  That name is `base(RepoRoot)-BranchName`
when `BranchName` holds no separator and `RepoRoot` is not the root
directory. -/
theorem Create_add_name {R S : Type} (env : Env R S) (opts : CreateOptions)
    (reg : R) (name path : String) (port : Int) (repo : String)
    (hreg : Call.registryAdd reg name path port repo ∈ (Create env opts).calls) :
    (Create env opts).err = none ∧
      (Create env opts).path = filepathJoin [opts.DestDir,
        filepathBase opts.RepoRoot ++ "-" ++ opts.BranchName] ∧
      path = (Create env opts).path ∧
      name = filepathBase (Create env opts).path ∧
      (filepathBase opts.RepoRoot ≠ "/" → '/' ∉ opts.BranchName.data →
        name = filepathBase opts.RepoRoot ++ "-" ++ opts.BranchName) := by
  obtain ⟨herr, hpath, hname, hp, -, -⟩ := Create_add_call env opts reg name path port repo hreg
  refine ⟨herr, hpath, by rw [hpath, hp], by rw [hpath, hname], ?_⟩
  intro hrepo hbranch
  obtain ⟨h0, hsep, h1, h2⟩ := spaceName_real opts hrepo hbranch
  rw [hname]
  exact filepathBase_filepathJoin opts.DestDir _ h0 hsep h1 h2

end spaces

/-! ## OpenWorkspace -/

namespace cmd

/-- C8. `OpenWorkspace` checks the path `DestDir` joined with `WorkspaceName`
in this order and returns the first error: an absent path gives "workspace
does not exist"; any other failure of `os.Stat` gives "failed to access
workspace"; a path that is no directory gives "workspace path is not a
directory"; a directory that is no git worktree gives "not a git worktree"
(`IsWorktree` is asked only then).  In each of these cases no tmux command is
run; a tmux command is run only when all checks have passed. -/
theorem OpenWorkspace_validation (env : Env) (opts : OpenOptions) :
    (∀ e, env.Stat (filepathJoin [opts.DestDir, opts.WorkspaceName]) = .notExist e →
      OpenWorkspace env opts =
        ⟨some (.errorf "workspace does not exist: %s"
            (filepathJoin [opts.DestDir, opts.WorkspaceName])),
          [.osStat (filepathJoin [opts.DestDir, opts.WorkspaceName])]⟩) ∧
    (∀ e, env.Stat (filepathJoin [opts.DestDir, opts.WorkspaceName]) = .failed e →
      OpenWorkspace env opts =
        ⟨some (.wrapf "failed to access workspace: %w" e),
          [.osStat (filepathJoin [opts.DestDir, opts.WorkspaceName])]⟩) ∧
    (env.Stat (filepathJoin [opts.DestDir, opts.WorkspaceName]) = .ok false →
      OpenWorkspace env opts =
        ⟨some (.errorf "workspace path is not a directory: %s"
            (filepathJoin [opts.DestDir, opts.WorkspaceName])),
          [.osStat (filepathJoin [opts.DestDir, opts.WorkspaceName])]⟩) ∧
    (env.Stat (filepathJoin [opts.DestDir, opts.WorkspaceName]) = .ok true →
      env.IsWorktree (filepathJoin [opts.DestDir, opts.WorkspaceName]) = false →
      OpenWorkspace env opts =
        ⟨some (.errorf "not a git worktree: %s"
            (filepathJoin [opts.DestDir, opts.WorkspaceName])),
          [.osStat (filepathJoin [opts.DestDir, opts.WorkspaceName]),
           .isWorktree (filepathJoin [opts.DestDir, opts.WorkspaceName])]⟩) ∧
    (∀ c ∈ (OpenWorkspace env opts).calls, c.isTmux = true →
      env.Stat (filepathJoin [opts.DestDir, opts.WorkspaceName]) = .ok true ∧
        env.IsWorktree (filepathJoin [opts.DestDir, opts.WorkspaceName]) = true) := by
  refine ⟨?_, ?_, ?_, ?_, ?_⟩
  · intro e h
    simp only [OpenWorkspace, workspacePathOf, h]
  · intro e h
    simp only [OpenWorkspace, workspacePathOf, h]
  · intro h
    simp [OpenWorkspace, workspacePathOf, h]
  · intro h hw
    simp [OpenWorkspace, workspacePathOf, h, hw]
  · intro c hmem htmux
    cases hs : env.Stat (filepathJoin [opts.DestDir, opts.WorkspaceName]) with
    | notExist e =>
      simp only [OpenWorkspace, workspacePathOf, hs, List.mem_singleton] at hmem
      subst hmem
      exact absurd htmux (by simp [Call.isTmux])
    | failed e =>
      simp only [OpenWorkspace, workspacePathOf, hs, List.mem_singleton] at hmem
      subst hmem
      exact absurd htmux (by simp [Call.isTmux])
    | ok isDir =>
      cases isDir with
      | false =>
        simp [OpenWorkspace, workspacePathOf, hs] at hmem
        subst hmem
        exact absurd htmux (by simp [Call.isTmux])
      | true =>
        cases hw : env.IsWorktree (filepathJoin [opts.DestDir, opts.WorkspaceName]) with
        | true => exact ⟨rfl, rfl⟩
        | false =>
          simp [OpenWorkspace, workspacePathOf, hs, hw] at hmem
          rcases hmem with h | h <;> subst h <;> exact absurd htmux (by simp [Call.isTmux])

theorem OpenWorkspace_attach (env : Env) (opts : OpenOptions)
    (hstat : env.Stat (workspacePathOf opts) = .ok true)
    (hwt : env.IsWorktree (workspacePathOf opts) = true)
    (hex : tmuxSessionExists env (SanitizeSessionName opts.WorkspaceName) = true) :
    OpenWorkspace env opts =
      ⟨tmuxAttach env (SanitizeSessionName opts.WorkspaceName),
        [.osStat (workspacePathOf opts), .isWorktree (workspacePathOf opts),
         .exec (hasSessionArgv (SanitizeSessionName opts.WorkspaceName)),
         .exec (attachArgv (SanitizeSessionName opts.WorkspaceName))]⟩ := by
  simp [OpenWorkspace, hstat, hwt, hex]

theorem OpenWorkspace_new (env : Env) (opts : OpenOptions)
    (hstat : env.Stat (workspacePathOf opts) = .ok true)
    (hwt : env.IsWorktree (workspacePathOf opts) = true)
    (hex : tmuxSessionExists env (SanitizeSessionName opts.WorkspaceName) = false) :
    OpenWorkspace env opts =
      ⟨tmuxNewSession env (SanitizeSessionName opts.WorkspaceName) (workspacePathOf opts),
        [.osStat (workspacePathOf opts), .isWorktree (workspacePathOf opts),
         .exec (hasSessionArgv (SanitizeSessionName opts.WorkspaceName)),
         .exec (newSessionArgv (SanitizeSessionName opts.WorkspaceName)
           (workspacePathOf opts))]⟩ := by
  simp [OpenWorkspace, hstat, hwt, hex]

/-- C9. When the path `DestDir` joined with `WorkspaceName` is a directory
and a git worktree, `OpenWorkspace` runs `tmux has-session` on the session
named `SanitizeSessionName WorkspaceName` and then does exactly one thing:
if `has-session` succeeds (the session exists), it runs `attach-session` on
that session and no `new-session`; if `has-session` fails, it runs
`new-session` with that name and the workspace path as working directory.
The error returned is the result of that one command. -/
theorem OpenWorkspace_session (env : Env) (opts : OpenOptions)
    (hstat : env.Stat (filepathJoin [opts.DestDir, opts.WorkspaceName]) = .ok true)
    (hwt : env.IsWorktree (filepathJoin [opts.DestDir, opts.WorkspaceName]) = true) :
    (env.Run ["tmux", "has-session", "-t", SanitizeSessionName opts.WorkspaceName] = none →
      (OpenWorkspace env opts).err
          = env.Run ["tmux", "attach-session", "-t", SanitizeSessionName opts.WorkspaceName] ∧
        (OpenWorkspace env opts).calls =
          [.osStat (filepathJoin [opts.DestDir, opts.WorkspaceName]),
           .isWorktree (filepathJoin [opts.DestDir, opts.WorkspaceName]),
           .exec ["tmux", "has-session", "-t", SanitizeSessionName opts.WorkspaceName],
           .exec ["tmux", "attach-session", "-t", SanitizeSessionName opts.WorkspaceName]]) ∧
    (∀ e : GoError,
      env.Run ["tmux", "has-session", "-t", SanitizeSessionName opts.WorkspaceName] = some e →
      (OpenWorkspace env opts).err
          = env.Run ["tmux", "new-session", "-s", SanitizeSessionName opts.WorkspaceName,
              "-c", filepathJoin [opts.DestDir, opts.WorkspaceName]] ∧
        (OpenWorkspace env opts).calls =
          [.osStat (filepathJoin [opts.DestDir, opts.WorkspaceName]),
           .isWorktree (filepathJoin [opts.DestDir, opts.WorkspaceName]),
           .exec ["tmux", "has-session", "-t", SanitizeSessionName opts.WorkspaceName],
           .exec ["tmux", "new-session", "-s", SanitizeSessionName opts.WorkspaceName,
              "-c", filepathJoin [opts.DestDir, opts.WorkspaceName]]]) := by
  constructor
  · intro hrun
    have hex : tmuxSessionExists env (SanitizeSessionName opts.WorkspaceName) = true := by
      unfold tmuxSessionExists hasSessionArgv
      rw [hrun]; rfl
    rw [OpenWorkspace_attach env opts hstat hwt hex]
    exact ⟨rfl, rfl⟩
  · intro e hrun
    have hex : tmuxSessionExists env (SanitizeSessionName opts.WorkspaceName) = false := by
      unfold tmuxSessionExists hasSessionArgv
      rw [hrun]; rfl
    rw [OpenWorkspace_new env opts hstat hwt hex]
    exact ⟨rfl, rfl⟩

/-- C10. `SanitizeSessionName` is not injective: the distinct names `a.b`,
`a:b` and `a_b` all give the session name `a_b`.  So when the workspace `a:b`
is a git worktree and tmux reports that the session of workspace `a.b`
exists, `OpenWorkspace` on `a:b` attaches to that session and creates no
session in the directory of `a:b`. -/
theorem SanitizeSessionName_not_injective :
    "a.b" ≠ "a:b" ∧ SanitizeSessionName "a.b" = SanitizeSessionName "a:b" ∧
    "a.b" ≠ "a_b" ∧ SanitizeSessionName "a.b" = SanitizeSessionName "a_b" ∧
    ∀ (env : Env) (destDir : String),
      env.Stat (filepathJoin [destDir, "a:b"]) = .ok true →
      env.IsWorktree (filepathJoin [destDir, "a:b"]) = true →
      tmuxSessionExists env (SanitizeSessionName "a.b") = true →
      (OpenWorkspace env ⟨destDir, "a:b"⟩).err
          = tmuxAttach env (SanitizeSessionName "a.b") ∧
        (OpenWorkspace env ⟨destDir, "a:b"⟩).calls =
          [.osStat (filepathJoin [destDir, "a:b"]),
           .isWorktree (filepathJoin [destDir, "a:b"]),
           .exec ["tmux", "has-session", "-t", SanitizeSessionName "a.b"],
           .exec ["tmux", "attach-session", "-t", SanitizeSessionName "a.b"]] ∧
        ∀ c ∈ (OpenWorkspace env ⟨destDir, "a:b"⟩).calls,
          c ≠ .exec ["tmux", "new-session", "-s", SanitizeSessionName "a:b", "-c",
            filepathJoin [destDir, "a:b"]] := by
  have h12 : SanitizeSessionName "a.b" = SanitizeSessionName "a:b" := by decide
  refine ⟨by decide, h12, by decide, by decide, ?_⟩
  intro env destDir hstat hwt hex
  rw [h12] at hex ⊢
  rw [OpenWorkspace_attach env ⟨destDir, "a:b"⟩ hstat hwt hex]
  refine ⟨rfl, rfl, ?_⟩
  intro c hmem
  simp only [List.mem_cons, List.mem_singleton, List.not_mem_nil, or_false] at hmem
  rcases hmem with h | h | h | h <;> subst h <;>
    simp [hasSessionArgv, attachArgv]

end cmd

/-! ## The theorems at concrete runs -/

namespace spaces

/-- C1 at a run in which `/w/proj-feat` exists. -/
theorem Create_existing_path_witness :
    (Create existingEnv featOpts).path = "" ∧
      (Create existingEnv featOpts).err
        = some (.errorf "worktree directory already exists: %s" "/w/proj-feat") ∧
      (Create existingEnv featOpts).calls = [.osStat "/w/proj-feat"] :=
  have h := Create_existing_path existingEnv featOpts true rfl
  ⟨h.1, h.2.1, h.2.2.1⟩

/-- C2 at a run in which the new branch is created, adding the worktree fails
and deleting the branch fails too. -/
theorem Create_worktree_failure_rollback_witness :
    (Create rollbackEnv featOpts).err
        = some (.wrapf "failed to create worktree: %w" (.external "worktree add failed")) ∧
      (Create rollbackEnv featOpts).calls.filter Call.isDeleteBranch
        = [.gitDeleteBranch "/r/proj" "feat"] :=
  have h := (Create_worktree_failure_rollback rollbackEnv featOpts
    (.external "worktree add failed") rfl rfl).1 rfl rfl
  ⟨h.2.1, h.2.2.2⟩

/-- C3 at a run in which the branch `feat` exists and is not to be reused. -/
theorem Create_branch_conflict_no_effects_witness :
    (Create conflictEnv featOpts).err = some (.errorf "branch %q already exists" "feat") ∧
      (Create conflictEnv featOpts).calls
        = [.osStat "/w/proj-feat", .gitBranchExists "/r/proj" "feat"] :=
  have h := Create_branch_conflict_no_effects conflictEnv featOpts rfl rfl rfl
  ⟨h.2.1, h.2.2.1⟩

/-- C4 at a run in which the worktree is added and every later step fails. -/
theorem Create_after_worktree_success_witness :
    (Create bookkeepingFailsEnv featOpts).path = "/w/proj-feat" ∧
      (Create bookkeepingFailsEnv featOpts).err = none :=
  have h := Create_after_worktree_success bookkeepingFailsEnv featOpts (by decide) rfl
  ⟨h.1, h.2.1⟩

/-- C5. The name of the registered record is meant to be
`base(repoRoot)-branchName`, and `Create` misses it on a branch name with a
separator: on the branch `feature/x` of `/r/proj`, with `/w` as destination,
`Create` succeeds, returns `/w/proj-feature/x` and registers the record under
the name `x`, where `base(repoRoot)-branchName` is `proj-feature/x`. -/
theorem Create_record_name_slash_branch :
    (Create freshEnv slashBranchOpts).err = none ∧
      (Create freshEnv slashBranchOpts).path = "/w/proj-feature/x" ∧
      (Create freshEnv slashBranchOpts).calls.filter Call.isRegistryAdd
        = [.registryAdd [] "x" "/w/proj-feature/x" 9000 "/r/proj"] ∧
      filepathBase slashBranchOpts.RepoRoot ++ "-" ++ slashBranchOpts.BranchName
        = "proj-feature/x" ∧
      "x" ≠ filepathBase slashBranchOpts.RepoRoot ++ "-" ++ slashBranchOpts.BranchName := by
  decide

/-- A second run, on the branch `bugfix/x`, registers its record under the
name `x` as well; with `Add` as the spec describes it, the registry saved
holds the record of `bugfix/x` only, the one of `feature/x` is replaced. -/
theorem Create_slash_branches_share_name :
    (Create afterSlashBranchEnv bugfixBranchOpts).err = none ∧
      (Create afterSlashBranchEnv bugfixBranchOpts).path = "/w/proj-bugfix/x" ∧
      (Create afterSlashBranchEnv bugfixBranchOpts).calls.filter Call.isRegistry =
        [.registryLoad "/w",
         .registryAllocatePort [⟨"x", "/w/proj-feature/x", 9000, "/r/proj"⟩],
         .registryAdd [⟨"x", "/w/proj-feature/x", 9000, "/r/proj"⟩]
           "x" "/w/proj-bugfix/x" 9001 "/r/proj",
         .registrySave [⟨"x", "/w/proj-bugfix/x", 9001, "/r/proj"⟩] "/w"] := by
  decide

/-- On the branch `feat`, without separator, the registered name is
`proj-feat`, which is `base(repoRoot)-branchName`. -/
theorem Create_add_name_feat :
    (Create freshEnv featOpts).path = "/w/proj-feat" ∧
      ("proj-feat" : String) = filepathBase (Create freshEnv featOpts).path ∧
      ("proj-feat" : String) = filepathBase featOpts.RepoRoot ++ "-" ++ featOpts.BranchName :=
  have h := Create_add_name freshEnv featOpts [] "proj-feat" "/w/proj-feat" 9000 "/r/proj"
    (by decide)
  ⟨h.2.1, h.2.2.2.1, h.2.2.2.2 (by decide) (by decide)⟩

/-- C6 at the run of the scenario. -/
theorem Create_registers_space_witness :
    (Create freshEnv featOpts).calls.filter Call.isRegistry =
      [.registryLoad "/w", .registryAllocatePort [],
       .registryAdd [] "proj-feat" "/w/proj-feat" 9000 "/r/proj",
       .registrySave [⟨"proj-feat", "/w/proj-feat", 9000, "/r/proj"⟩] "/w"] :=
  (Create_registers_space.2 String freshEnv false rfl rfl rfl (by decide) rfl).2.2

end spaces

namespace cmd

/-- C7 on the names of the tests of open_test.go. -/
theorem SanitizeSessionName_spec_witness :
    SanitizeSessionName "my-workspace" = "my-workspace" ∧
      (SanitizeSessionName "my.workspace").data = "my_workspace".data ∧
      (SanitizeSessionName "my:workspace").data = "my_workspace".data ∧
      (SanitizeSessionName "repo.name:branch").data = "repo_name_branch".data :=
  ⟨(SanitizeSessionName_spec "my-workspace").2.2.2.2.2 ⟨by decide, by decide⟩,
    (SanitizeSessionName_spec "my.workspace").1,
    (SanitizeSessionName_spec "my:workspace").1,
    (SanitizeSessionName_spec "repo.name:branch").1⟩

/-- C8 at the workspaces of the tests of open_test.go: one that does not
exist, a directory that is no worktree, and a file. -/
theorem OpenWorkspace_validation_witness :
    OpenWorkspace (fixedEnv (.notExist (.external "no such file or directory")) false
        tmuxWithoutSession) ⟨"/w", "non-existent"⟩ =
      ⟨some (.errorf "workspace does not exist: %s" "/w/non-existent"),
        [.osStat "/w/non-existent"]⟩ ∧
    OpenWorkspace (fixedEnv (.ok true) false tmuxWithoutSession) ⟨"/w", "regular-dir"⟩ =
      ⟨some (.errorf "not a git worktree: %s" "/w/regular-dir"),
        [.osStat "/w/regular-dir", .isWorktree "/w/regular-dir"]⟩ ∧
    OpenWorkspace (fixedEnv (.ok false) false tmuxWithoutSession) ⟨"/w", "file-not-dir"⟩ =
      ⟨some (.errorf "workspace path is not a directory: %s" "/w/file-not-dir"),
        [.osStat "/w/file-not-dir"]⟩ :=
  ⟨(OpenWorkspace_validation (fixedEnv (.notExist (.external "no such file or directory"))
      false tmuxWithoutSession) ⟨"/w", "non-existent"⟩).1 _ rfl,
    (OpenWorkspace_validation (fixedEnv (.ok true) false tmuxWithoutSession)
      ⟨"/w", "regular-dir"⟩).2.2.2.1 rfl rfl,
    (OpenWorkspace_validation (fixedEnv (.ok false) false tmuxWithoutSession)
      ⟨"/w", "file-not-dir"⟩).2.2.1 rfl⟩

/-- C9 at a worktree without tmux session, where `has-session` fails and a
new session is created in the worktree, and at a worktree whose session
`a_b` exists, where `has-session` succeeds and the session is attached. -/
theorem OpenWorkspace_session_witness :
    ((OpenWorkspace (fixedEnv (.ok true) true tmuxWithoutSession) ⟨"/w", "proj.feat"⟩).err
        = none ∧
      (OpenWorkspace (fixedEnv (.ok true) true tmuxWithoutSession) ⟨"/w", "proj.feat"⟩).calls =
        [.osStat "/w/proj.feat", .isWorktree "/w/proj.feat",
         .exec ["tmux", "has-session", "-t", "proj_feat"],
         .exec ["tmux", "new-session", "-s", "proj_feat", "-c", "/w/proj.feat"]]) ∧
    ((OpenWorkspace (fixedEnv (.ok true) true tmuxWithSession) ⟨"/w", "a.b"⟩).err = none ∧
      (OpenWorkspace (fixedEnv (.ok true) true tmuxWithSession) ⟨"/w", "a.b"⟩).calls =
        [.osStat "/w/a.b", .isWorktree "/w/a.b",
         .exec ["tmux", "has-session", "-t", "a_b"],
         .exec ["tmux", "attach-session", "-t", "a_b"]]) :=
  ⟨(OpenWorkspace_session (fixedEnv (.ok true) true tmuxWithoutSession) ⟨"/w", "proj.feat"⟩
      rfl rfl).2 (.external "exit status 1") rfl,
    (OpenWorkspace_session (fixedEnv (.ok true) true tmuxWithSession) ⟨"/w", "a.b"⟩
      rfl rfl).1 rfl⟩

/-- C10 at a tmux in which the session `a_b` of workspace `a.b` exists. -/
theorem SanitizeSessionName_not_injective_witness :
    (OpenWorkspace (fixedEnv (.ok true) true tmuxWithSession) ⟨"/w", "a:b"⟩).err = none ∧
      (OpenWorkspace (fixedEnv (.ok true) true tmuxWithSession) ⟨"/w", "a:b"⟩).calls =
        [.osStat "/w/a:b", .isWorktree "/w/a:b",
         .exec ["tmux", "has-session", "-t", "a_b"],
         .exec ["tmux", "attach-session", "-t", "a_b"]] :=
  have h := SanitizeSessionName_not_injective.2.2.2.2
    (fixedEnv (.ok true) true tmuxWithSession) "/w" rfl rfl rfl
  ⟨h.1, h.2.1⟩

end cmd
